import Mathlib

/-!
Verification of the container-manager core: validation layer, config store,
and mount reconciliation.  The Go sources are embedded shallowly: pure Go
functions become Lean functions on `String`/`List`; the runtime driver and
the host filesystem (external collaborators) are oracles passed explicitly;
effectful operations thread an explicit `World` state and an event trace.
-/

namespace LxcSpec

/-! ### Generic association-list helpers (Go `map[string]T`) -/

/-- First-match lookup in an association list (Go map read). -/
def lookupA {α : Type} (l : List (String × α)) (k : String) : Option α :=
  match l.find? (fun p => p.1 == k) with
  | some p => some p.2
  | none => none

/-- Insert or replace a binding (Go map write): replaces the first binding of
the key in place, otherwise appends. -/
def insertA {α : Type} : List (String × α) → String → α → List (String × α)
  | [], k, v => [(k, v)]
  | (k', v') :: rest, k, v =>
    if k' == k then (k, v) :: rest else (k', v') :: insertA rest k v

/-- Delete a binding (Go map `delete`). -/
def eraseA {α : Type} (l : List (String × α)) (k : String) : List (String × α) :=
  l.filter (fun p => !(p.1 == k))

/-! ### Character and string helpers (ASCII, as used by the Go code) -/

def isLowerCh (c : Char) : Bool := 'a' ≤ c && c ≤ 'z'
def isUpperCh (c : Char) : Bool := 'A' ≤ c && c ≤ 'Z'
def isDigitCh (c : Char) : Bool := '0' ≤ c && c ≤ '9'
def isLetterCh (c : Char) : Bool := isLowerCh c || isUpperCh c
def isAlnumCh (c : Char) : Bool := isLetterCh c || isDigitCh c

/-- Whitespace as trimmed by Go `strings.TrimSpace` (ASCII subset). -/
def isSpaceCh (c : Char) : Bool :=
  c == ' ' || c == '\t' || c == '\n' || c == '\r'

/-- Go `strings.TrimSpace` (ASCII whitespace). -/
def trimS (s : String) : String :=
  ⟨((s.data.dropWhile isSpaceCh).reverse.dropWhile isSpaceCh).reverse⟩

/-- Go `strings.ToLower` (ASCII). -/
def toLowerS (s : String) : String :=
  ⟨s.data.map (fun c => if isUpperCh c then Char.ofNat (c.toNat + 32) else c)⟩

/-- Byte length of an ASCII string (Go `len`). -/
def lenS (s : String) : Nat := s.data.length

/-- Go `strings.HasPrefix`. -/
def startsWithS (s pre : String) : Bool := pre.data.isPrefixOf s.data

/-- Go `strings.HasSuffix`. -/
def endsWithS (s suf : String) : Bool := suf.data.reverse.isPrefixOf s.data.reverse

/-- Go `strings.TrimSuffix` (removes one occurrence of the suffix, if present). -/
def trimSuffixS (s suf : String) : String :=
  if endsWithS s suf then ⟨(s.data.reverse.drop suf.data.length).reverse⟩ else s

/-- Substring test on char lists, used for Go `strings.Contains`. -/
def listHasSub (pat : List Char) : List Char → Bool
  | [] => pat.isEmpty
  | c :: cs => pat.isPrefixOf (c :: cs) || listHasSub pat cs

/-- Go `strings.Contains s pat`. -/
def hasSubstr (s pat : String) : Bool := listHasSub pat.data s.data

/-! ### Go `path/filepath` lexical operations -/

/-- Split a char list on `/` separators. -/
def splitSlash (l : List Char) : List (List Char) :=
  l.foldr
    (fun c acc =>
      match acc with
      | seg :: rest => if c == '/' then [] :: seg :: rest else (c :: seg) :: rest
      | [] => [[c]])
    [[]]

/-- Clean-stack processing for an absolute path: `..` pops, at the root it is
dropped (Go `filepath.Clean` on rooted paths). -/
def cleanStackAbs : List (List Char) → List (List Char) → List (List Char)
  | [], acc => acc.reverse
  | s :: rest, acc =>
    if s == ['.', '.'] then cleanStackAbs rest (acc.drop 1)
    else cleanStackAbs rest (s :: acc)

/-- Clean-stack processing for a relative path: `..` pops unless the stack is
empty or already ends in `..`, in which case it is kept. -/
def cleanStackRel : List (List Char) → List (List Char) → List (List Char)
  | [], acc => acc.reverse
  | s :: rest, acc =>
    if s == ['.', '.'] then
      match acc with
      | [] => cleanStackRel rest [['.', '.']]
      | t :: acc' =>
        if t == ['.', '.'] then cleanStackRel rest (s :: t :: acc')
        else cleanStackRel rest acc'
    else cleanStackRel rest (s :: acc)

/-- Non-empty, non-`.` path segments of a char list. -/
def realSegs (l : List Char) : List (List Char) :=
  (splitSlash l).filter (fun s => !s.isEmpty && !(s == ['.']))

/-- Go `filepath.Clean` (Unix rules). -/
def clean (p : String) : String :=
  if p == "" then "."
  else if startsWithS p "/" then
    ⟨'/' :: List.intercalate ['/'] (cleanStackAbs (realSegs p.data) [])⟩
  else
    let segs := cleanStackRel (realSegs p.data) []
    if segs.isEmpty then "." else ⟨List.intercalate ['/'] segs⟩

/-- Go `filepath.Base` (Unix rules). -/
def basename (p : String) : String :=
  if p == "" then "."
  else
    let l := p.data.reverse.dropWhile (fun c => c == '/')
    if l.isEmpty then "/" else ⟨(l.takeWhile (fun c => !(c == '/'))).reverse⟩

/-! ### Validation constants (`internal/validation/validation.go`) -/

def MaxContainerNameLength : Nat := 63
def MaxContainerPathLength : Nat := 4096
def MaxMountNameLength : Nat := 50

def reservedNames : List String :=
  ["list", "create", "delete", "start", "stop", "snapshot", "image", "config"]

def BlockedHostPaths : List String :=
  ["/", "/root", "/etc", "/boot", "/proc", "/sys", "/dev",
   "/var/lib/lxd", "/var/lib/lxc"]

def BlockedHostPatterns : List String :=
  ["/.ssh", "/.aws", "/.gnupg", "/.config/gcloud"]

def RiskyHostPaths : List String :=
  ["/home", "/var", "/tmp", "/opt"]

def BlockedContainerPaths : List String :=
  ["/", "/proc", "/sys", "/dev"]

/-- The regex `[a-zA-Z][a-zA-Z0-9-]*` anchored on the whole string. -/
def nameRegexMatches (s : String) : Bool :=
  match s.data with
  | [] => false
  | c :: rest => isLetterCh c && rest.all (fun d => isAlnumCh d || d == '-')

/-- First character of a nonempty string (Go `name[0]`). -/
def headCh (s : String) : Char := s.data.headD ' '

/-! ### Validation functions -/

/-- `ValidateContainerName` from `internal/validation/validation.go`. -/
def validateContainerName (name0 : String) : Except String Unit :=
  let name := trimS name0
  if name == "" then .error "container name cannot be empty"
  else if MaxContainerNameLength < lenS name then
    .error ("container name too long: " ++ toString (lenS name)
      ++ " characters (max " ++ toString MaxContainerNameLength ++ ")")
  else if !nameRegexMatches name then
    if isDigitCh (headCh name) then
      .error ("container name must start with a letter, not \x27"
        ++ ⟨[headCh name]⟩ ++ "\x27")
    else if hasSubstr name " " then .error "container name cannot contain spaces"
    else if hasSubstr name "_" then
      .error "container name cannot contain underscores (use hyphens instead)"
    else
      .error "container name contains invalid characters (allowed: letters, numbers, hyphens)"
  else if startsWithS name "-" || endsWithS name "-" then
    .error "container name cannot start or end with a hyphen"
  else if hasSubstr name "--" then
    .error "container name cannot contain consecutive hyphens"
  else if reservedNames.contains (toLowerS name) then
    .error ("\x27" ++ name ++ "\x27 is a reserved name")
  else .ok ()

/-- `ValidateMountName` from `internal/validation/validation.go`.  Same checks
as `validateContainerName` except for the max-length constant and the absence
of the reserved-name check. -/
def validateMountName (name0 : String) : Except String Unit :=
  let name := trimS name0
  if name == "" then .error "mount name cannot be empty"
  else if MaxMountNameLength < lenS name then
    .error ("mount name too long: " ++ toString (lenS name)
      ++ " characters (max " ++ toString MaxMountNameLength ++ ")")
  else if !nameRegexMatches name then
    if isDigitCh (headCh name) then
      .error ("mount name must start with a letter, not \x27"
        ++ ⟨[headCh name]⟩ ++ "\x27")
    else if hasSubstr name " " then .error "mount name cannot contain spaces"
    else if hasSubstr name "_" then
      .error "mount name cannot contain underscores (use hyphens instead)"
    else
      .error "mount name contains invalid characters (allowed: letters, numbers, hyphens)"
  else if startsWithS name "-" || endsWithS name "-" then
    .error "mount name cannot start or end with a hyphen"
  else if hasSubstr name "--" then
    .error "mount name cannot contain consecutive hyphens"
  else .ok ()

/-- `ValidateContainerPath` from `internal/validation/validation.go`. -/
def validateContainerPath (path : String) : Except String Unit :=
  if path == "" then .error "container path cannot be empty"
  else if !startsWithS path "/" then
    .error ("container path must be absolute (start with /): " ++ path)
  else if MaxContainerPathLength < lenS path then
    .error ("container path too long: " ++ toString (lenS path)
      ++ " characters (max " ++ toString MaxContainerPathLength ++ ")")
  else if path.data.any (fun c => c == '\x00' || c == '\n' || c == '\r' || c == '\t') then
    .error "container path cannot contain control characters"
  else
    let cleanPath := clean path
    if hasSubstr cleanPath ".." then
      .error "container path cannot contain path traversal (..)"
    else if BlockedContainerPaths.contains cleanPath then
      .error ("mounting to \x27" ++ cleanPath ++ "\x27 "
        ++ "inside container is " ++ "not allowed")
    else .ok ()

/-- The loop of `GenerateMountName`: keep letters/digits, collapse runs of
other characters into a single hyphen, never emit a leading hyphen.  The
accumulator is kept reversed; the Bool is `prevWasHyphen`. -/
def gmLoop : List Char → List Char → Bool → List Char
  | [], acc, _ => acc.reverse
  | c :: rest, acc, prev =>
    if isAlnumCh c then gmLoop rest (c :: acc) false
    else if !prev && !acc.isEmpty then gmLoop rest ('-' :: acc) true
    else gmLoop rest acc prev

/-- `GenerateMountName` from `internal/validation/validation.go`. -/
def generateMountName (sourcePath : String) : String :=
  let name : String := ⟨gmLoop (basename sourcePath).data [] false⟩
  let name := trimSuffixS name "-"
  let name :=
    if name == "" || isDigitCh (headCh name) then "mount-" ++ name else name
  if MaxMountNameLength < lenS name then
    trimSuffixS ⟨name.data.take MaxMountNameLength⟩ "-"
  else name

/-! ### Host filesystem oracle and `ValidateSourcePath` -/

/-- The host filesystem as seen by `ValidateSourcePath`: `abs` is
`filepath.Abs` (assumed to succeed), `realpath` is `filepath.EvalSymlinks`
(`none` = the path does not exist; other I/O failures are collapsed into
non-existence, which only changes an error message no claim depends on), and
`isDir` is `os.Stat` + `IsDir` (`none` = stat fails). -/
structure HostFS where
  abs : String → String
  realpath : String → Option String
  isDir : String → Option Bool

/-- Result triple of `ValidateSourcePath`: resolved path, warning, error. -/
structure SrcResult where
  resolved : String
  warning : String
  err : Option String
deriving DecidableEq, Repr

/-- `ValidateSourcePath` from `internal/validation/validation.go`. -/
def validateSourcePath (fs : HostFS) (source : String) : SrcResult :=
  if source == "" then ⟨"", "", some "source path cannot be empty"⟩
  else
    let absPath := fs.abs source
    match fs.realpath absPath with
    | none => ⟨"", "", some ("source path does not exist: " ++ absPath)⟩
    | some rp =>
      let resolvedPath := clean rp
      match fs.isDir resolvedPath with
      | none => ⟨"", "", some ("source path does not exist: " ++ resolvedPath)⟩
      | some false =>
        ⟨"", "", some ("source path must be a directory, not a file: " ++ resolvedPath)⟩
      | some true =>
        if BlockedHostPaths.contains resolvedPath then
          ⟨"", "", some ("mounting \x27" ++ resolvedPath ++ "\x27 is "
            ++ "not allowed" ++ " for security reasons")⟩
        else
          match BlockedHostPatterns.find? (fun pat => endsWithS resolvedPath pat) with
          | some pat =>
            ⟨"", "", some ("mounting paths matching \x27" ++ pat ++ "\x27 is "
              ++ "not allowed" ++ " for security reasons")⟩
          | none =>
            let warning :=
              if RiskyHostPaths.contains resolvedPath then
                "mounting \x27" ++ resolvedPath ++ "\x27 is "
                  ++ "risky" ++ " and may expose sensitive data"
              else ""
            ⟨resolvedPath, warning, none⟩

/-! ### Declared-state document data model (`internal/config`) -/

structure User where
  name : String
  password : String
deriving DecidableEq, Repr

structure Defaults where
  ports : List Nat
  user : User
deriving DecidableEq, Repr

structure Snapshot where
  description : String
  createdAt : String
deriving DecidableEq, Repr

structure Device where
  type : String
  config : List (String × String)
deriving DecidableEq, Repr

structure SyncEntry where
  source : String
  dest : String
deriving DecidableEq, Repr

structure Container where
  image : String
  ports : List Nat
  user : User
  sync : List SyncEntry
  snapshots : List (String × Snapshot)
  devices : List (String × Device)
deriving DecidableEq, Repr

structure Config where
  project : String
  defaults : Defaults
  containers : List (String × Container)
deriving DecidableEq, Repr

/-- `Config.HasContainer`. -/
def Config.hasContainer (c : Config) (name : String) : Bool :=
  (lookupA c.containers name).isSome

/-- `Config.GetLXCName`: full runtime name with project prefix. -/
def Config.getLXCName (c : Config) (shortName : String) : String :=
  if c.project == "" then shortName else c.project ++ "-" ++ shortName

/-- `Config.GetDevices` (Go returns nil when the container is absent). -/
def Config.getDevices (c : Config) (containerName : String) : Option (List (String × Device)) :=
  match lookupA c.containers containerName with
  | some ct => some ct.devices
  | none => none

/-- `Config.HasDevice`. -/
def Config.hasDevice (c : Config) (containerName deviceName : String) : Bool :=
  match lookupA c.containers containerName with
  | some ct => (lookupA ct.devices deviceName).isSome
  | none => false

/-- `Config.FindDeviceByPath`: first device whose config maps `path` to the
given value (Go nil-map guard modelled as a non-emptiness check). -/
def Config.findDeviceByPath (c : Config) (containerName path : String) : Option String :=
  match lookupA c.containers containerName with
  | none => none
  | some ct =>
    match ct.devices.find?
        (fun nd => !nd.2.config.isEmpty && ((lookupA nd.2.config "path").getD "" == path)) with
    | some nd => some nd.1
    | none => none

/-- `Config.AddDevice`: silently a no-op when the container is absent. -/
def Config.addDevice (c : Config) (containerName deviceName : String) (device : Device) : Config :=
  match lookupA c.containers containerName with
  | none => c
  | some ct =>
    let ct2 : Container := { ct with devices := insertA ct.devices deviceName device }
    { c with containers := insertA c.containers containerName ct2 }

/-- `Config.RemoveDevice`. -/
def Config.removeDevice (c : Config) (containerName deviceName : String) : Config :=
  match lookupA c.containers containerName with
  | none => c
  | some ct =>
    let ct2 : Container := { ct with devices := eraseA ct.devices deviceName }
    { c with containers := insertA c.containers containerName ct2 }

/-- Body of `Config.AddSyncEntry`: overwrite in place on equal source,
otherwise append. -/
def addSyncList (entry : SyncEntry) : List SyncEntry → List SyncEntry
  | [] => [entry]
  | e :: rest =>
    if e.source == entry.source then entry :: rest else e :: addSyncList entry rest

/-- `Config.AddSyncEntry`: silently a no-op when the container is absent. -/
def Config.addSyncEntry (c : Config) (containerName : String) (entry : SyncEntry) : Config :=
  match lookupA c.containers containerName with
  | none => c
  | some ct =>
    let ct2 : Container := { ct with sync := addSyncList entry ct.sync }
    { c with containers := insertA c.containers containerName ct2 }

/-- Body of `Config.RemoveSyncEntry`: drop the first entry with the source. -/
def removeSyncList (source : String) : List SyncEntry → List SyncEntry
  | [] => []
  | e :: rest => if e.source == source then rest else e :: removeSyncList source rest

/-- `Config.RemoveSyncEntry`: silently a no-op when the container is absent. -/
def Config.removeSyncEntry (c : Config) (containerName source : String) : Config :=
  match lookupA c.containers containerName with
  | none => c
  | some ct =>
    let ct2 : Container := { ct with sync := removeSyncList source ct.sync }
    { c with containers := insertA c.containers containerName ct2 }

/-! ### Atomic save (`Config.Save` / `atomicWriteFile`)

The on-disk state visible to `atomicWriteFile` is the target file's content,
the temporary file's content (`none` = no temp file on disk) and the target's
permission bits.  Each fallible I/O step gets a fault-injection flag; the
function replays the Go control flow, including the deferred
`os.Remove(tmpName)` that runs on every non-success exit. -/

structure AwState where
  target : Option String
  temp : Option String
  targetPerm : Nat
deriving DecidableEq, Repr

structure AwFaults where
  createTempFails : Bool
  writeFails : Bool
  syncFails : Bool
  closeFails : Bool
  chmodFails : Bool
  renameFails : Bool
deriving DecidableEq, Repr

/-- `atomicWriteFile` from `internal/config`: temp file in the same
directory, write, sync, close, chmod, rename; any failure removes the temp
file and leaves the target untouched. -/
def atomicWriteFile (f : AwFaults) (data : String) (perm : Nat) (st : AwState) :
    Except String Unit × AwState :=
  if f.createTempFails then (.error "failed to create temp file", st)
  else
    let st1 : AwState := { st with temp := some "" }
    if f.writeFails then (.error "failed to write temp file", { st1 with temp := none })
    else
      let st2 : AwState := { st1 with temp := some data }
      if f.syncFails then (.error "failed to sync temp file", { st2 with temp := none })
      else if f.closeFails then (.error "failed to close temp file", { st2 with temp := none })
      else if f.chmodFails then (.error "failed to set permissions", { st2 with temp := none })
      else if f.renameFails then (.error "failed to rename temp file", { st2 with temp := none })
      else (.ok (), { target := some data, temp := none, targetPerm := perm })

/-- `Config.Save`: marshal the document (the YAML encoder is an external
library, abstracted as a fallible `marshal` function) and write the result
atomically with permission `0644`. -/
def saveDoc (f : AwFaults) (marshal : Config → Option String) (cfg : Config)
    (st : AwState) : Except String Unit × AwState :=
  match marshal cfg with
  | none => (.error "marshal failed", st)
  | some data => atomicWriteFile f data 420 st

/-! ### Runtime driver oracle and world state (`internal/lxc` collaborator)

The runtime driver is an external collaborator (spec section 6).  Its queries
(`Exists`, `IsPrivileged`) and the failure behaviour of its mutating calls
(`DeviceAdd`, `DeviceRemove`, `DeviceList`) and of `Config.Save` are supplied
as oracles; its live device state and the on-disk document are part of the
mutable `World`.  Every runtime call and every `Save` call is recorded in an
event trace. -/

/-- Live device record reported by the driver (`lxc.DeviceInfo`). -/
structure DeviceInfo where
  name : String
  type : String
  config : List (String × String)
deriving DecidableEq, Repr

structure Oracle where
  existsC : String → Bool
  isPrivileged : String → Except String Bool
  addFails : String → String → Bool
  removeFails : String → String → Bool
  listFails : String → Bool
  saveFails : Bool

inductive Ev where
  | deviceAdd (lxcName devName : String)
  | deviceRemove (lxcName devName : String)
  | save
deriving DecidableEq, Repr

structure World where
  cfg : Config
  live : List (String × List DeviceInfo)
  disk : Option Config
  trace : List Ev
deriving DecidableEq, Repr

/-- Append a device to a container's live device list (driver `DeviceAdd`
effect). -/
def insertLive : List (String × List DeviceInfo) → String → DeviceInfo →
    List (String × List DeviceInfo)
  | [], l, di => [(l, [di])]
  | (k, ds) :: rest, l, di =>
    if k == l then (k, ds ++ [di]) :: rest else (k, ds) :: insertLive rest l di

/-- Remove a named device from a container's live device list (driver
`DeviceRemove` effect). -/
def removeLive : List (String × List DeviceInfo) → String → String →
    List (String × List DeviceInfo)
  | [], _, _ => []
  | (k, ds) :: rest, l, d =>
    if k == l then (k, ds.filter (fun di => !(di.name == d))) :: rest
    else (k, ds) :: removeLive rest l d

/-- `lxc.DeviceAdd`: records the call, then either fails (oracle) or appends
the device to the live state.  Returns whether the call succeeded. -/
def rtDeviceAdd (o : Oracle) (w : World) (lxcName devName ty : String)
    (cfgMap : List (String × String)) : Bool × World :=
  let w1 : World := { w with trace := w.trace ++ [.deviceAdd lxcName devName] }
  if o.addFails lxcName devName then (false, w1)
  else (true, { w1 with live := insertLive w1.live lxcName ⟨devName, ty, cfgMap⟩ })

/-- `lxc.DeviceRemove`: records the call, then either fails (oracle) or
removes the device from the live state. -/
def rtDeviceRemove (o : Oracle) (w : World) (lxcName devName : String) : Bool × World :=
  let w1 : World := { w with trace := w.trace ++ [.deviceRemove lxcName devName] }
  if o.removeFails lxcName devName then (false, w1)
  else (true, { w1 with live := removeLive w1.live lxcName devName })

/-- `cfg.Save()`: records the call, then either fails (oracle; by the
atomicity of `atomicWriteFile` a failed save leaves the on-disk document
unchanged) or replaces the on-disk document with the in-memory one. -/
def doSave (o : Oracle) (w : World) : Bool × World :=
  let w1 : World := { w with trace := w.trace ++ [.save] }
  if o.saveFails then (false, w1)
  else (true, { w1 with disk := some w1.cfg })

/-! ### Mount orchestration (`internal/operations/mount.go`) -/

/-- `MountOpts` from the operations package. -/
structure MountOpts where
  name : String
  readWrite : Bool
  shift : Bool
  allowRiskyPath : Bool
deriving DecidableEq, Repr

/-- `MountInfo` from the operations package. -/
structure MountInfo where
  name : String
  source : String
  path : String
  mode : String
  status : String
deriving DecidableEq, Repr

/-- Lexicographic (bytewise, restricted to ASCII) comparison of char lists:
the Go `<` operator on strings. -/
def ltCharList : List Char → List Char → Bool
  | [], [] => false
  | [], _ :: _ => true
  | _ :: _, [] => false
  | a :: as, b :: bs =>
    if a.toNat < b.toNat then true
    else if b.toNat < a.toNat then false
    else ltCharList as bs

/-- Go string `<`. -/
def ltS (a b : String) : Bool := ltCharList a.data b.data

/-- Insert a `MountInfo` into a list sorted by name, before the first entry
with a strictly greater name (the comparator of `sort.Slice` in `ListMounts`). -/
def insertByName (m : MountInfo) : List MountInfo → List MountInfo
  | [] => [m]
  | x :: xs => if ltS m.name x.name then m :: x :: xs else x :: insertByName m xs

/-- Sort by device name for deterministic output (`sort.Slice` in
`ListMounts`). -/
def sortByName : List MountInfo → List MountInfo
  | [] => []
  | x :: xs => insertByName x (sortByName xs)

/-- `GetMode`: `"ro"` when the device config sets `readonly=true`. -/
def getMode (deviceConfig : List (String × String)) : String :=
  if (lookupA deviceConfig "readonly").getD "" == "true" then "ro" else "rw"

/-- Device-name resolution in `Mount`: the caller-supplied name, or a name
generated from the resolved source path when none was given. -/
def resolveDeviceName (opts : MountOpts) (resolvedSource : String) : String :=
  if opts.name == "" then generateMountName resolvedSource else opts.name

/-- The read-only validation phase of `Mount` (`mount.go` lines 15-86): all
checks before the first runtime mutation.  Returns the resolved device name
and its config map. -/
def mountChecks (o : Oracle) (fs : HostFS) (cfg : Config)
    (containerName sourcePath containerPath : String) (opts : MountOpts) :
    Except String (String × List (String × String)) :=
  if !cfg.hasContainer containerName then
    .error ("container \x27" ++ containerName ++ "\x27 not found in config")
  else
    let lxcName := cfg.getLXCName containerName
    if !o.existsC lxcName then
      .error ("container \x27" ++ lxcName ++ "\x27 does not exist in LXC")
    else
      let r := validateSourcePath fs sourcePath
      match r.err with
      | some e => .error ("invalid source path: " ++ e)
      | none =>
        if !(r.warning == "") && !opts.allowRiskyPath then
          .error ("risky path: " ++ r.warning)
        else
          match validateContainerPath containerPath with
          | .error e => .error ("invalid container path: " ++ e)
          | .ok _ =>
            let deviceName := resolveDeviceName opts r.resolved
            match validateMountName deviceName with
            | .error e => .error ("invalid device name: " ++ e)
            | .ok _ =>
              if cfg.hasDevice containerName deviceName then
                .error ("device \x27" ++ deviceName ++ "\x27 " ++ "already exists"
                  ++ (" on container \x27" ++ containerName ++ "\x27"))
              else
                match cfg.findDeviceByPath containerName containerPath with
                | some existingName =>
                  .error ("container path \x27" ++ containerPath ++ "\x27 is " ++ "already mounted"
                    ++ (" by device \x27" ++ existingName ++ "\x27"))
                | none =>
                  match o.isPrivileged lxcName with
                  | .error e =>
                    .error ("failed to check container privilege status: " ++ e)
                  | .ok privileged =>
                    if privileged && opts.readWrite then
                      .error "read-write mounts are disabled for privileged containers"
                    else if privileged && startsWithS r.resolved "/home" then
                      .error "mounting /home to privileged containers is blocked for security reasons"
                    else
                      let deviceConfig :=
                        [("source", r.resolved), ("path", containerPath)]
                          ++ (if !opts.readWrite then [("readonly", "true")] else [])
                          ++ (if opts.shift then [("shift", "true")] else [])
                      .ok (deviceName, deviceConfig)

/-- `Mount`: validation phase, then `DeviceAdd` to the runtime, then
`AddDevice` to the document and `Save`; a failed save rolls back the runtime
device add (ignoring the rollback call's own result). -/
def mount (o : Oracle) (fs : HostFS) (w : World)
    (containerName sourcePath containerPath : String) (opts : MountOpts) :
    Except String String × World :=
  match mountChecks o fs w.cfg containerName sourcePath containerPath opts with
  | .error e => (.error e, w)
  | .ok (deviceName, deviceConfig) =>
    let lxcName := w.cfg.getLXCName containerName
    let r1 := rtDeviceAdd o w lxcName deviceName "disk" deviceConfig
    if !r1.1 then (.error "failed to add device to container", r1.2)
    else
      let w2 : World :=
        { r1.2 with cfg := r1.2.cfg.addDevice containerName deviceName ⟨"disk", deviceConfig⟩ }
      let r2 := doSave o w2
      if !r2.1 then
        let r3 := rtDeviceRemove o r2.2 lxcName deviceName
        (.error "failed to save config", r3.2)
      else (.ok deviceName, r2.2)

/-- The pure reconciliation diff of `ListMounts` (`mount.go` lines 163-230):
declared disk devices classified `ok`/`missing` against the live disk
devices, live disk devices not declared as disk classified `untracked`,
result sorted by name. -/
def listMountsCore (configDevices : List (String × Device)) (lxcDevices : List DeviceInfo) :
    List MountInfo :=
  let lxcDisk := lxcDevices.filter (fun d => d.type == "disk")
  let fromConfig :=
    configDevices.filterMap (fun nd =>
      if nd.2.type == "disk" then
        some { name := nd.1,
               source := (lookupA nd.2.config "source").getD "",
               path := (lookupA nd.2.config "path").getD "",
               mode := getMode nd.2.config,
               status := if lxcDisk.any (fun d => d.name == nd.1) then "ok" else "missing" }
      else (none : Option MountInfo))
  let fromLxc :=
    lxcDisk.filterMap (fun d =>
      if configDevices.any (fun nd => nd.2.type == "disk" && nd.1 == d.name) then
        (none : Option MountInfo)
      else
        some { name := d.name,
               source := (lookupA d.config "source").getD "",
               path := (lookupA d.config "path").getD "",
               mode := getMode d.config,
               status := "untracked" })
  sortByName (fromConfig ++ fromLxc)

/-- `ListMounts`: guards, fetch both device sets, diff. -/
def listMounts (o : Oracle) (w : World) (containerName : String) :
    Except String (List MountInfo) :=
  if !w.cfg.hasContainer containerName then
    .error ("container \x27" ++ containerName ++ "\x27 not found in config")
  else
    let lxcName := w.cfg.getLXCName containerName
    if !o.existsC lxcName then
      .error ("container \x27" ++ lxcName ++ "\x27 does not exist in LXC")
    else if o.listFails lxcName then .error "failed to list devices"
    else
      .ok (listMountsCore ((w.cfg.getDevices containerName).getD [])
        ((lookupA w.live lxcName).getD []))

/-- One iteration of the `SyncMounts` loop: `untracked` entries are adopted
into the document (reconstructing `readonly` from the observed mode),
`missing` entries are re-added to the runtime, `ok` entries are untouched.
Returns an error message on a failed runtime call. -/
def syncStep (o : Oracle) (containerName lxcName : String)
    (configDevices : List (String × Device)) (m : MountInfo) (w : World) :
    Option String × World :=
  if m.status == "untracked" then
    let deviceConfig :=
      [("source", m.source), ("path", m.path)]
        ++ (if m.mode == "ro" then [("readonly", "true")] else [])
    (none, { w with cfg := w.cfg.addDevice containerName m.name ⟨"disk", deviceConfig⟩ })
  else if m.status == "missing" then
    let device := (lookupA configDevices m.name).getD ⟨"", []⟩
    let r := rtDeviceAdd o w lxcName m.name device.type device.config
    if r.1 then (none, r.2)
    else (some ("failed to re-add device \x27" ++ m.name ++ "\x27"), r.2)
  else (none, w)

/-- The `SyncMounts` loop, aborting on the first failed runtime call. -/
def syncLoop (o : Oracle) (containerName lxcName : String)
    (configDevices : List (String × Device)) :
    List MountInfo → World → Option String × World
  | [], w => (none, w)
  | m :: rest, w =>
    let r := syncStep o containerName lxcName configDevices m w
    match r.1 with
    | some e => (some e, r.2)
    | none => syncLoop o containerName lxcName configDevices rest r.2

/-- `SyncMounts`: guards, diff, per-entry reconciliation, then a single save
at the end; a runtime-call failure aborts with no save. -/
def syncMounts (o : Oracle) (w : World) (containerName : String) :
    Except String Unit × World :=
  if !w.cfg.hasContainer containerName then
    (.error ("container \x27" ++ containerName ++ "\x27 not found in config"), w)
  else
    let lxcName := w.cfg.getLXCName containerName
    if !o.existsC lxcName then
      (.error ("container \x27" ++ lxcName ++ "\x27 does not exist in LXC"), w)
    else
      match listMounts o w containerName with
      | .error e => (.error e, w)
      | .ok mounts =>
        let configDevices := (w.cfg.getDevices containerName).getD []
        let r := syncLoop o containerName lxcName configDevices mounts w
        match r.1 with
        | some e => (.error e, r.2)
        | none =>
          let r2 := doSave o r.2
          if r2.1 then (.ok (), r2.2)
          else (.error "failed to save config", r2.2)

/-! ### Small result-inspection helpers used by the theorems -/

/-- Whether an `Except` is a success. -/
def isOkE {ε α : Type} : Except ε α → Bool
  | .ok _ => true
  | .error _ => false

/-- The error message of an `Except String`, or `""` on success. -/
def errText {α : Type} : Except String α → String
  | .error e => e
  | .ok _ => ""

lemma isPrefixOf_self_append (l t : List Char) : l.isPrefixOf (l ++ t) = true := by
  induction l with
  | nil => simp [List.isPrefixOf]
  | cons c cs ih => simp [List.isPrefixOf, ih]

lemma listHasSub_parts (pat a b : List Char) : listHasSub pat (a ++ pat ++ b) = true := by
  induction a with
  | nil =>
    cases pat with
    | nil => cases b <;> simp [listHasSub]
    | cons p ps =>
      simp only [List.nil_append, List.cons_append, listHasSub, Bool.or_eq_true]
      exact Or.inl (by simp)
  | cons c cs ih =>
    simp only [List.cons_append, listHasSub, Bool.or_eq_true]
    exact Or.inr (by simpa [List.append_assoc] using ih)

/-- A string built around a literal fragment contains that fragment. -/
lemma hasSubstr_parts (a pat b : String) : hasSubstr (a ++ pat ++ b) pat = true := by
  have h : (a ++ pat ++ b).data = a.data ++ pat.data ++ b.data := by
    simp [String.data_append]
  simp only [hasSubstr, h]
  exact listHasSub_parts pat.data a.data b.data

/-! ### Claim C10: in-memory mutators are silent no-ops for unknown containers -/

/-- C10: for a container name absent from the document's container map,
`AddDevice`, `AddSyncEntry` and `RemoveSyncEntry` leave the configuration
value completely unchanged (in particular, no container entry is created). -/
theorem mutators_noop_without_container (c : Config) (cn dn : String)
    (dev : Device) (entry : SyncEntry) (src : String)
    (h : lookupA c.containers cn = none) :
    c.addDevice cn dn dev = c ∧ c.addSyncEntry cn entry = c ∧ c.removeSyncEntry cn src = c := by
  refine ⟨?_, ?_, ?_⟩ <;>
    simp [Config.addDevice, Config.addSyncEntry, Config.removeSyncEntry, h]

/-- Fixture: a one-container document used by witnesses. -/
def witCt : Container :=
  ⟨"img", [], ⟨"", ""⟩, [], [], [("repo", ⟨"disk", [("source", "/host"), ("path", "/ws")]⟩)]⟩

/-- Fixture: a document declaring container `c` with disk device `repo`. -/
def witCfg : Config := ⟨"", ⟨[], ⟨"", ""⟩⟩, [("c", witCt)]⟩

theorem mutators_noop_without_container_witness :
    witCfg.addDevice "other" "d" ⟨"disk", []⟩ = witCfg
  ∧ witCfg.addSyncEntry "other" ⟨"/s", "/d"⟩ = witCfg
  ∧ witCfg.removeSyncEntry "other" "/s" = witCfg :=
  mutators_noop_without_container witCfg "other" "d" ⟨"disk", []⟩ ⟨"/s", "/d"⟩ "/s" (by decide)

/-! ### Claim C9: GenerateMountName -/

/-- C9: `GenerateMountName` keeps letters and digits of the last path
segment, collapses runs of other characters to one hyphen, strips a trailing
hyphen, prefixes `mount-` when empty or digit-leading, and truncates to the
max mount-name length without leaving a trailing hyphen; concretely on the
three inputs named by the claim. -/
theorem generateMountName_examples :
    generateMountName "/home/user/my_project" = "my-project"
  ∧ generateMountName "/data/123project" = "mount-123project"
  ∧ lenS (generateMountName ("/home/" ++ ⟨List.replicate 100 'a'⟩)) = MaxMountNameLength
  ∧ endsWithS (generateMountName ("/home/" ++ ⟨List.replicate 100 'a'⟩)) "-" = false :=
  ⟨by rfl, by rfl, by decide, by decide⟩

/-! ### Claim C1: Save writes the document atomically -/

/-- C1: `Save` (marshal + `atomicWriteFile`) either fails leaving the target
file's previous content unchanged and no temporary file behind, or succeeds
having replaced the target with exactly the serialized document and set the
final permissions — a reader never observes a partially-written document. -/
theorem saveDoc_atomic (f : AwFaults) (marshal : Config → Option String)
    (cfg : Config) (st : AwState) (hT : st.temp = none) :
    (isOkE (saveDoc f marshal cfg st).1 = false →
      (saveDoc f marshal cfg st).2.target = st.target
        ∧ (saveDoc f marshal cfg st).2.temp = none)
  ∧ (isOkE (saveDoc f marshal cfg st).1 = true →
      ∀ data, marshal cfg = some data →
        (saveDoc f marshal cfg st).2.target = some data
          ∧ (saveDoc f marshal cfg st).2.temp = none
          ∧ (saveDoc f marshal cfg st).2.targetPerm = 420) := by
  cases hm : marshal cfg with
  | none => simp [saveDoc, hm, isOkE, hT]
  | some data =>
    rcases f with ⟨f1, f2, f3, f4, f5, f6⟩
    cases f1 <;> cases f2 <;> cases f3 <;> cases f4 <;> cases f5 <;> cases f6 <;>
      simp [saveDoc, hm, atomicWriteFile, isOkE, hT]

theorem saveDoc_atomic_witness :
    (saveDoc ⟨false, false, false, false, false, false⟩ (fun _ => some "doc") witCfg
        ⟨some "old", none, 0⟩).2.target = some "doc"
  ∧ (saveDoc ⟨false, false, true, false, false, false⟩ (fun _ => some "doc") witCfg
        ⟨some "old", none, 0⟩).2.target = some "old" := by
  have h1 := (saveDoc_atomic ⟨false, false, false, false, false, false⟩
    (fun _ => some "doc") witCfg ⟨some "old", none, 0⟩ rfl).2 (by rfl) "doc" rfl
  have h2 := (saveDoc_atomic ⟨false, false, true, false, false, false⟩
    (fun _ => some "doc") witCfg ⟨some "old", none, 0⟩ rfl).1 (by rfl)
  exact ⟨h1.1, h2.1⟩

/-! ### Claim C8 (corrected): mount-name vs container-name validation -/

/-- C8 counterexample: `ValidateMountName` accepts the reserved name
`list`, while `ValidateContainerName` rejects it — the mount-name validator
has no reserved-word check. -/
theorem validateMountName_reserved_counterexample :
    validateMountName "list" = .ok ()
  ∧ validateContainerName "list" = .error "\x27list\x27 is a reserved name" :=
  ⟨rfl, rfl⟩

/-- C8 amended: mount-name validation applies the same rules as
container-name validation except for the max-length constant and the
reserved-word check: every reserved name is accepted as a mount name though
rejected as a container name, and on non-reserved names within the mount
length limit the two validators accept exactly the same names. -/
theorem validateMountName_amended :
    (∀ n ∈ reservedNames, validateMountName n = .ok ()
       ∧ isOkE (validateContainerName n) = false)
  ∧ (∀ name, lenS (trimS name) ≤ MaxMountNameLength →
       reservedNames.contains (toLowerS (trimS name)) = false →
       isOkE (validateMountName name) = isOkE (validateContainerName name)) := by
  constructor
  · intro n hn
    fin_cases hn <;> exact ⟨rfl, rfl⟩
  · intro name h1 h2
    have hm : ¬ (MaxMountNameLength < lenS (trimS name)) := by omega
    have hc : ¬ (MaxContainerNameLength < lenS (trimS name)) := by
      simp only [MaxMountNameLength] at h1
      simp only [MaxContainerNameLength]
      omega
    simp only [validateMountName, validateContainerName, hm, hc, h2, if_neg,
      if_false, Bool.false_eq_true]
    split_ifs <;> rfl

theorem validateMountName_amended_witness :
    validateMountName "snapshot" = .ok ()
  ∧ isOkE (validateMountName "my--dev") = isOkE (validateContainerName "my--dev") := by
  refine ⟨(validateMountName_amended.1 "snapshot" (by decide)).1, ?_⟩
  exact validateMountName_amended.2 "my--dev" (by decide) (by decide)

/-! ### Claim C6: container-path deny-list is checked on the cleaned path -/

/-- C6: `ValidateContainerPath` cleans the path before the deny-list check,
and for paths passing the earlier syntactic checks the rejection happens
exactly when the cleaned result is `/`, `/proc`, `/sys` or `/dev`; in
particular `/home/../proc` (cleaning to `/proc`) is rejected while
`/home/../etc/passwd` (cleaning to `/etc/passwd`) is accepted. -/
theorem validateContainerPath_denylist :
    (∀ p, (p == "") = false → startsWithS p "/" = true →
       lenS p ≤ MaxContainerPathLength →
       p.data.any (fun c => c == '\x00' || c == '\n' || c == '\r' || c == '\t') = false →
       hasSubstr (clean p) ".." = false →
       (isOkE (validateContainerPath p) = false ↔ clean p ∈ BlockedContainerPaths))
  ∧ clean "/home/../proc" = "/proc"
  ∧ hasSubstr (errText (validateContainerPath "/home/../proc")) "not allowed" = true
  ∧ clean "/home/../etc/passwd" = "/etc/passwd"
  ∧ validateContainerPath "/home/../etc/passwd" = .ok () := by
  refine ⟨?_, by rfl, by decide, by rfl, by rfl⟩
  intro p h1 h2 h3 h4 h5
  have hlen : ¬ (MaxContainerPathLength < lenS p) := by omega
  simp only [validateContainerPath, h1, h2, hlen, h4, h5, Bool.false_eq_true,
    if_false, if_neg, Bool.true_eq_false, if_true]
  by_cases hb : clean p ∈ BlockedContainerPaths
  · have hb' : BlockedContainerPaths.contains (clean p) = true := by
      simpa [List.elem_iff] using hb
    simp [hb', hb, isOkE]
  · have hb' : BlockedContainerPaths.contains (clean p) = false := by
      simpa [List.elem_iff] using hb
    simp [hb', hb, isOkE]

theorem validateContainerPath_denylist_witness :
    isOkE (validateContainerPath "/data") = true := by
  have h := validateContainerPath_denylist.1 "/data" (by decide) (by decide)
    (by decide) (by decide) (by decide)
  cases hh : isOkE (validateContainerPath "/data") with
  | true => rfl
  | false => exact absurd (h.mp hh) (by decide)

/-! ### Claim C7: ValidateSourcePath deny-list, risky warning, exclusivity -/

/-- C7: `ValidateSourcePath` fails with an error containing `not allowed`
when the resolved path equals a deny-listed path or ends with a deny-listed
suffix; it succeeds with a non-empty warning containing `risky` when the
resolved path equals a risky path; and in every call the returned warning
and error are never both non-empty. -/
theorem validateSourcePath_policy :
    (∀ fs s rp, (s == "") = false → fs.realpath (fs.abs s) = some rp →
       fs.isDir (clean rp) = some true →
       (clean rp ∈ BlockedHostPaths
         ∨ ∃ pat ∈ BlockedHostPatterns, endsWithS (clean rp) pat = true) →
       (validateSourcePath fs s).err.isSome = true
         ∧ hasSubstr ((validateSourcePath fs s).err.getD "") "not allowed" = true)
  ∧ (∀ fs s rp, (s == "") = false → fs.realpath (fs.abs s) = some rp →
       fs.isDir (clean rp) = some true →
       clean rp ∉ BlockedHostPaths →
       (∀ pat ∈ BlockedHostPatterns, endsWithS (clean rp) pat = false) →
       clean rp ∈ RiskyHostPaths →
       (validateSourcePath fs s).err = none
         ∧ (validateSourcePath fs s).warning ≠ ""
         ∧ hasSubstr (validateSourcePath fs s).warning "risky" = true)
  ∧ (∀ fs s, (validateSourcePath fs s).err = none
       ∨ (validateSourcePath fs s).warning = "") := by
  refine ⟨?_, ?_, ?_⟩
  · intro fs s rp h1 h2 h3 hblk
    by_cases hc : BlockedHostPaths.contains (clean rp) = true
    · simp only [validateSourcePath, h1, h2, h3, hc, Bool.false_eq_true, if_false, if_true]
      exact ⟨by simp, hasSubstr_parts ("mounting \x27" ++ clean rp ++ "\x27 is ")
        "not allowed" " for security reasons"⟩
    · have hmem : clean rp ∉ BlockedHostPaths := by
        intro hm; exact hc (by simpa [List.elem_iff] using hm)
      have hpat : ∃ pat ∈ BlockedHostPatterns, endsWithS (clean rp) pat = true := by
        rcases hblk with hb | hb
        · exact absurd hb hmem
        · exact hb
      have hc' : BlockedHostPaths.contains (clean rp) = false := by
        cases hcc : BlockedHostPaths.contains (clean rp) with
        | true => exact absurd hcc hc
        | false => rfl
      have hfind : (BlockedHostPatterns.find? (fun pat => endsWithS (clean rp) pat)).isSome := by
        rw [List.find?_isSome]
        exact hpat
      cases hf : BlockedHostPatterns.find? (fun pat => endsWithS (clean rp) pat) with
      | none => rw [hf] at hfind; simp at hfind
      | some pat =>
        simp only [validateSourcePath, h1, h2, h3, hc', hf, Bool.false_eq_true, if_false]
        exact ⟨by simp, hasSubstr_parts ("mounting paths matching \x27" ++ pat ++ "\x27 is ")
          "not allowed" " for security reasons"⟩
  · intro fs s rp h1 h2 h3 hnb hnp hr
    have hc' : BlockedHostPaths.contains (clean rp) = false := by
      cases hcc : BlockedHostPaths.contains (clean rp) with
      | true => exact absurd (by simpa [List.elem_iff] using hcc) hnb
      | false => rfl
    have hf : BlockedHostPatterns.find? (fun pat => endsWithS (clean rp) pat) = none := by
      rw [List.find?_eq_none]
      intro pat hp
      simp [hnp pat hp]
    have hrc : RiskyHostPaths.contains (clean rp) = true := by
      simpa [List.elem_iff] using hr
    simp only [validateSourcePath, h1, h2, h3, hc', hf, hrc, Bool.false_eq_true,
      if_false, if_true]
    refine ⟨by simp, ?_, hasSubstr_parts ("mounting \x27" ++ clean rp ++ "\x27 is ")
      "risky" " and may expose sensitive data"⟩
    intro h
    have := congrArg String.data h
    simp [String.data_append] at this
  · intro fs s
    simp only [validateSourcePath]
    split
    · right; rfl
    · split
      · right; rfl
      · split
        · right; rfl
        · right; rfl
        · split
          · right; rfl
          · split
            · right; rfl
            · left; rfl

theorem validateSourcePath_policy_witness :
    ((validateSourcePath ⟨id, fun s => some s, fun _ => some true⟩ "/etc").err.isSome = true)
  ∧ hasSubstr ((validateSourcePath ⟨id, fun s => some s, fun _ => some true⟩ "/etc").err.getD "")
      "not allowed" = true
  ∧ (validateSourcePath ⟨id, fun s => some s, fun _ => some true⟩ "/tmp").err = none
  ∧ hasSubstr (validateSourcePath ⟨id, fun s => some s, fun _ => some true⟩ "/tmp").warning
      "risky" = true := by
  have h1 := validateSourcePath_policy.1 ⟨id, fun s => some s, fun _ => some true⟩
    "/etc" "/etc" (by decide) rfl (by rfl) (by left; decide)
  have h2 := validateSourcePath_policy.2.1 ⟨id, fun s => some s, fun _ => some true⟩
    "/tmp" "/tmp" (by decide) rfl (by rfl) (by decide) (by decide) (by decide)
  exact ⟨h1.1, h1.2, h2.1, h2.2.2⟩

/-! ### Claim C3: mount conflicts are hard errors before any runtime call -/

/-- C3: when the resolved device name already exists on the container,
`Mount` fails with an error containing `already exists`; when another device
already maps the same container path, it fails with an error containing
`already mounted`; in both cases the world is untouched — in particular no
`DeviceAdd` event is issued. -/
theorem mount_conflicts_fail_before_runtime
    (o : Oracle) (fs : HostFS) (w : World)
    (containerName sourcePath containerPath d : String) (opts : MountOpts)
    (h1 : w.cfg.hasContainer containerName = true)
    (h2 : o.existsC (w.cfg.getLXCName containerName) = true)
    (h3 : (validateSourcePath fs sourcePath).err = none)
    (h4 : (validateSourcePath fs sourcePath).warning = "" ∨ opts.allowRiskyPath = true)
    (h5 : validateContainerPath containerPath = .ok ())
    (hd : resolveDeviceName opts (validateSourcePath fs sourcePath).resolved = d)
    (h6 : validateMountName d = .ok ()) :
    (w.cfg.hasDevice containerName d = true →
       isOkE (mount o fs w containerName sourcePath containerPath opts).1 = false
       ∧ hasSubstr (errText (mount o fs w containerName sourcePath containerPath opts).1)
           "already exists" = true
       ∧ (mount o fs w containerName sourcePath containerPath opts).2 = w)
  ∧ (w.cfg.hasDevice containerName d = false →
       ∀ x, w.cfg.findDeviceByPath containerName containerPath = some x →
         isOkE (mount o fs w containerName sourcePath containerPath opts).1 = false
         ∧ hasSubstr (errText (mount o fs w containerName sourcePath containerPath opts).1)
             "already mounted" = true
         ∧ (mount o fs w containerName sourcePath containerPath opts).2 = w) := by
  constructor
  · intro hdev
    have hchecks : mountChecks o fs w.cfg containerName sourcePath containerPath opts
        = .error ("device \x27" ++ d ++ "\x27 " ++ "already exists"
            ++ (" on container \x27" ++ containerName ++ "\x27")) := by
      rcases h4 with h4 | h4 <;>
        simp [mountChecks, h1, h2, h3, h4, h5, hd, h6, hdev]
    have hm : mount o fs w containerName sourcePath containerPath opts
        = (.error ("device \x27" ++ d ++ "\x27 " ++ "already exists"
            ++ (" on container \x27" ++ containerName ++ "\x27")), w) := by
      simp only [mount, hchecks]
    rw [hm]
    exact ⟨rfl, hasSubstr_parts ("device \x27" ++ d ++ "\x27 ") "already exists"
      (" on container \x27" ++ containerName ++ "\x27"), rfl⟩
  · intro hdev x hx
    have hchecks : mountChecks o fs w.cfg containerName sourcePath containerPath opts
        = .error ("container path \x27" ++ containerPath ++ "\x27 is " ++ "already mounted"
            ++ (" by device \x27" ++ x ++ "\x27")) := by
      rcases h4 with h4 | h4 <;>
        simp [mountChecks, h1, h2, h3, h4, h5, hd, h6, hdev, hx]
    have hm : mount o fs w containerName sourcePath containerPath opts
        = (.error ("container path \x27" ++ containerPath ++ "\x27 is " ++ "already mounted"
            ++ (" by device \x27" ++ x ++ "\x27")), w) := by
      simp only [mount, hchecks]
    rw [hm]
    exact ⟨rfl, hasSubstr_parts ("container path \x27" ++ containerPath ++ "\x27 is ")
      "already mounted" (" by device \x27" ++ x ++ "\x27"), rfl⟩

/-- Fixture: a benign oracle where every runtime call succeeds. -/
def witOracle : Oracle :=
  ⟨fun _ => true, fun _ => .ok false, fun _ _ => false, fun _ _ => false,
   fun _ => false, false⟩

/-- Fixture: a host filesystem where every path exists and is a directory. -/
def witFS : HostFS := ⟨id, fun s => some s, fun _ => some true⟩

/-- Fixture: live runtime state matching `witCfg`. -/
def witLive : List (String × List DeviceInfo) :=
  [("c", [⟨"repo", "disk", [("source", "/host"), ("path", "/ws")]⟩])]

/-- Fixture: world holding `witCfg` with its on-disk copy and empty trace. -/
def witWorld : World := ⟨witCfg, witLive, some witCfg, []⟩

theorem mount_conflicts_witness :
    (isOkE (mount witOracle witFS witWorld "c" "/data" "/other"
        ⟨"repo", false, false, false⟩).1 = false
      ∧ hasSubstr (errText (mount witOracle witFS witWorld "c" "/data" "/other"
          ⟨"repo", false, false, false⟩).1) "already exists" = true
      ∧ (mount witOracle witFS witWorld "c" "/data" "/other"
          ⟨"repo", false, false, false⟩).2 = witWorld)
  ∧ (isOkE (mount witOracle witFS witWorld "c" "/data" "/ws"
        ⟨"newdev", false, false, false⟩).1 = false
      ∧ hasSubstr (errText (mount witOracle witFS witWorld "c" "/data" "/ws"
          ⟨"newdev", false, false, false⟩).1) "already mounted" = true
      ∧ (mount witOracle witFS witWorld "c" "/data" "/ws"
          ⟨"newdev", false, false, false⟩).2 = witWorld) := by
  constructor
  · exact (mount_conflicts_fail_before_runtime witOracle witFS witWorld
      "c" "/data" "/other" "repo" ⟨"repo", false, false, false⟩
      (by decide) (by decide) (by rfl) (Or.inl (by rfl)) (by rfl) (by decide)
      (by rfl)).1 (by decide)
  · exact (mount_conflicts_fail_before_runtime witOracle witFS witWorld
      "c" "/data" "/ws" "newdev" ⟨"newdev", false, false, false⟩
      (by decide) (by decide) (by rfl) (Or.inl (by rfl)) (by rfl) (by decide)
      (by rfl)).2 (by decide) "repo" (by decide)

/-! ### Claim C2: failed save rolls back the runtime device add -/

lemma lookupA_cons_ne {α : Type} (k' : String) (v' : α) (rest : List (String × α))
    (k : String) (h : (k' == k) = false) :
    lookupA ((k', v') :: rest) k = lookupA rest k := by
  simp [lookupA, List.find?, h]

/-- Removing a device just added restores the live state, provided the
container has a live entry that does not already contain the name. -/
lemma removeLive_insertLive (live : List (String × List DeviceInfo))
    (l d : String) (di : DeviceInfo) (hdi : di.name = d)
    (dl : List DeviceInfo) (hl : lookupA live l = some dl)
    (hnone : ∀ x ∈ dl, ¬ x.name = d) :
    removeLive (insertLive live l di) l d = live := by
  induction live with
  | nil => simp [lookupA] at hl
  | cons hd tl ih =>
    obtain ⟨k, ds⟩ := hd
    by_cases hk : (k == l) = true
    · have hkk : k = l := by simpa using hk
      have hds : ds = dl := by
        subst hkk
        simp [lookupA, List.find?] at hl
        exact hl
      subst hds hkk
      simp only [insertLive, removeLive, hk, if_true]
      congr 1
      · congr 1
        rw [List.filter_append]
        have h1 : ds.filter (fun x => !(x.name == d)) = ds :=
          List.filter_eq_self.mpr (fun x hx => by simp [hnone x hx])
        have h2 : [di].filter (fun x => !(x.name == d)) = [] := by
          simp [List.filter, hdi]
        rw [h1, h2, List.append_nil]
    · have hk' : (k == l) = false := by simpa using hk
      have hl' : lookupA tl l = some dl := by
        rw [← lookupA_cons_ne k ds tl l hk']
        exact hl
      simp [insertLive, removeLive, hk', ih hl']

/-- C2: the device is added to the runtime before the document is saved; on
a failing save, `Mount` returns an error, issues a compensating
`DeviceRemove` for the just-added device, leaves the on-disk document
unchanged, and (when the rollback call succeeds and the name was not
previously live) restores the runtime device state exactly. -/
theorem mount_rollback_on_save_failure
    (o : Oracle) (fs : HostFS) (w : World)
    (containerName sourcePath containerPath : String) (opts : MountOpts)
    (d : String) (dc : List (String × String))
    (hchecks : mountChecks o fs w.cfg containerName sourcePath containerPath opts
      = .ok (d, dc))
    (hadd : o.addFails (w.cfg.getLXCName containerName) d = false)
    (hsave : o.saveFails = true) :
    (mount o fs w containerName sourcePath containerPath opts).1
      = .error "failed to save config"
  ∧ (mount o fs w containerName sourcePath containerPath opts).2.trace
      = w.trace ++ [.deviceAdd (w.cfg.getLXCName containerName) d, .save,
                    .deviceRemove (w.cfg.getLXCName containerName) d]
  ∧ (mount o fs w containerName sourcePath containerPath opts).2.disk = w.disk
  ∧ (o.removeFails (w.cfg.getLXCName containerName) d = false →
      ∀ dl, lookupA w.live (w.cfg.getLXCName containerName) = some dl →
        (∀ x ∈ dl, ¬ x.name = d) →
        (mount o fs w containerName sourcePath containerPath opts).2.live = w.live) := by
  cases hrm : o.removeFails (w.cfg.getLXCName containerName) d with
  | true =>
    refine ⟨?_, ?_, ?_, ?_⟩ <;>
      simp [mount, hchecks, rtDeviceAdd, hadd, doSave, hsave, rtDeviceRemove, hrm]
  | false =>
    refine ⟨?_, ?_, ?_, ?_⟩
    · simp [mount, hchecks, rtDeviceAdd, hadd, doSave, hsave, rtDeviceRemove, hrm]
    · simp [mount, hchecks, rtDeviceAdd, hadd, doSave, hsave, rtDeviceRemove, hrm]
    · simp [mount, hchecks, rtDeviceAdd, hadd, doSave, hsave, rtDeviceRemove, hrm]
    · intro _ dl hdl hnone
      simp only [mount, hchecks, rtDeviceAdd, hadd, doSave, hsave, rtDeviceRemove, hrm]
      simp only [Bool.not_false, Bool.not_true, if_false, if_true, Bool.false_eq_true]
      exact removeLive_insertLive w.live (w.cfg.getLXCName containerName) d
        ⟨d, "disk", dc⟩ rfl dl hdl hnone

theorem mount_rollback_witness :
    (mount { witOracle with saveFails := true } witFS witWorld "c" "/data" "/other"
        ⟨"newdev", false, false, false⟩).1 = .error "failed to save config"
  ∧ (mount { witOracle with saveFails := true } witFS witWorld "c" "/data" "/other"
        ⟨"newdev", false, false, false⟩).2.trace
      = [.deviceAdd "c" "newdev", .save, .deviceRemove "c" "newdev"]
  ∧ (mount { witOracle with saveFails := true } witFS witWorld "c" "/data" "/other"
        ⟨"newdev", false, false, false⟩).2.live = witWorld.live := by
  have h := mount_rollback_on_save_failure { witOracle with saveFails := true }
    witFS witWorld "c" "/data" "/other" ⟨"newdev", false, false, false⟩
    "newdev" [("source", "/data"), ("path", "/other"), ("readonly", "true")]
    (by rfl) (by rfl) (by rfl)
  exact ⟨h.1, h.2.1, h.2.2.2 (by rfl) _ (by rfl) (by decide)⟩

/-! ### Claim C4: SyncMounts saves once, at the end, and fails fast -/

/-- Whether an event is a `Save` call. -/
def isSaveEv : Ev → Bool
  | .save => true
  | _ => false

/-- Number of `Save` calls recorded in a trace. -/
def countSaves (t : List Ev) : Nat := (t.filter isSaveEv).length

lemma countSaves_append (t u : List Ev) :
    countSaves (t ++ u) = countSaves t + countSaves u := by
  simp [countSaves, List.filter_append]

lemma countSaves_single_save : countSaves [Ev.save] = 1 := rfl

lemma syncStep_frame (o : Oracle) (cn lxc : String) (cds : List (String × Device))
    (m : MountInfo) (w : World) :
    countSaves (syncStep o cn lxc cds m w).2.trace = countSaves w.trace
  ∧ (syncStep o cn lxc cds m w).2.disk = w.disk := by
  by_cases h1 : (m.status == "untracked") = true
  · simp [syncStep, h1]
  · by_cases h2 : (m.status == "missing") = true
    · by_cases h3 : o.addFails lxc m.name = true <;>
        simp [syncStep, h1, h2, rtDeviceAdd, h3, countSaves_append, countSaves, isSaveEv]
    · simp [syncStep, h1, h2]

lemma syncLoop_frame (o : Oracle) (cn lxc : String) (cds : List (String × Device)) :
    ∀ (ms : List MountInfo) (w : World),
      countSaves (syncLoop o cn lxc cds ms w).2.trace = countSaves w.trace
    ∧ (syncLoop o cn lxc cds ms w).2.disk = w.disk := by
  intro ms
  induction ms with
  | nil => intro w; simp [syncLoop]
  | cons m rest ih =>
    intro w
    have hs := syncStep_frame o cn lxc cds m w
    simp only [syncLoop]
    cases hr : (syncStep o cn lxc cds m w).1 with
    | some e => simpa using hs
    | none =>
      simp only
      exact ⟨(ih _).1.trans hs.1, (ih _).2.trans hs.2⟩

lemma syncLoop_fail_of_missing (o : Oracle) (cn lxc : String)
    (cds : List (String × Device)) :
    ∀ (ms : List MountInfo) (w : World),
      (∃ m ∈ ms, m.status = "missing" ∧ o.addFails lxc m.name = true) →
      (syncLoop o cn lxc cds ms w).1.isSome = true := by
  intro ms
  induction ms with
  | nil =>
    intro w h
    rcases h with ⟨m, hm, _⟩
    cases hm
  | cons m rest ih =>
    intro w h
    rcases h with ⟨m', hm', hstat, hfail⟩
    simp only [syncLoop]
    cases hr : (syncStep o cn lxc cds m w).1 with
    | some e => simp
    | none =>
      rcases List.mem_cons.mp hm' with heq | hmem
      · subst heq
        have hsome : (syncStep o cn lxc cds m' w).1.isSome = true := by
          simp [syncStep, hstat, rtDeviceAdd, hfail]
        rw [hr] at hsome
        simp at hsome
      · simp only
        exact ih _ ⟨m', hmem, hstat, hfail⟩

lemma syncLoop_all_ok (o : Oracle) (cn lxc : String) (cds : List (String × Device)) :
    ∀ (ms : List MountInfo) (w : World),
      (∀ m ∈ ms, m.status = "ok") → syncLoop o cn lxc cds ms w = (none, w) := by
  intro ms
  induction ms with
  | nil => intro w _; simp [syncLoop]
  | cons m rest ih =>
    intro w h
    have hm := h m (List.mem_cons_self m rest)
    have hstep : syncStep o cn lxc cds m w = (none, w) := by
      simp [syncStep, hm]
    simp only [syncLoop, hstep]
    exact ih w (fun x hx => h x (List.mem_cons_of_mem m hx))

/-- A successful `ListMounts` implies the guards passed and identifies the
returned diff. -/
lemma listMounts_ok_inv (o : Oracle) (w : World) (cn : String)
    (mounts : List MountInfo) (h : listMounts o w cn = .ok mounts) :
    w.cfg.hasContainer cn = true
  ∧ o.existsC (w.cfg.getLXCName cn) = true
  ∧ o.listFails (w.cfg.getLXCName cn) = false
  ∧ mounts = listMountsCore ((w.cfg.getDevices cn).getD [])
      ((lookupA w.live (w.cfg.getLXCName cn)).getD []) := by
  by_cases h1 : w.cfg.hasContainer cn = true
  · by_cases h2 : o.existsC (w.cfg.getLXCName cn) = true
    · by_cases h3 : o.listFails (w.cfg.getLXCName cn) = true
      · simp [listMounts, h1, h2, h3] at h
      · simp only [listMounts, h1, h2, h3] at h
        simp only [Bool.not_true, Bool.false_eq_true, if_false, if_true] at h
        refine ⟨h1, h2, by simpa using h3, ?_⟩
        cases h
        rfl
    · simp [listMounts, h1, h2] at h
  · simp [listMounts, h1] at h

/-- C4: `SyncMounts` calls `Save` at most once; when a runtime `DeviceAdd`
for a `missing` entry fails it returns an error with no save at all and an
unchanged on-disk document; and when every entry is `ok` it issues no
runtime call and leaves the in-memory document unchanged, the only recorded
event being the single final save. -/
theorem syncMounts_save_discipline (o : Oracle) (w : World) (cn : String)
    (hw : w.trace = []) :
    countSaves (syncMounts o w cn).2.trace ≤ 1
  ∧ (∀ mounts, listMounts o w cn = .ok mounts →
      ((∃ m ∈ mounts, m.status = "missing"
          ∧ o.addFails (w.cfg.getLXCName cn) m.name = true) →
        isOkE (syncMounts o w cn).1 = false
        ∧ countSaves (syncMounts o w cn).2.trace = 0
        ∧ (syncMounts o w cn).2.disk = w.disk)
      ∧ ((∀ m ∈ mounts, m.status = "ok") →
        (syncMounts o w cn).2.cfg = w.cfg
        ∧ (syncMounts o w cn).2.trace = [Ev.save]
        ∧ (o.saveFails = false → (syncMounts o w cn).2.disk = some w.cfg))) := by
  have hw0 : countSaves w.trace = 0 := by rw [hw]; rfl
  constructor
  · -- at most one save in every execution
    by_cases h1 : w.cfg.hasContainer cn = true
    · by_cases h2 : o.existsC (w.cfg.getLXCName cn) = true
      · cases hlm : listMounts o w cn with
        | error e => simp [syncMounts, h1, h2, hlm, hw0]
        | ok mounts =>
          have hloop := syncLoop_frame o cn (w.cfg.getLXCName cn)
            ((w.cfg.getDevices cn).getD []) mounts w
          cases hr : (syncLoop o cn (w.cfg.getLXCName cn)
              ((w.cfg.getDevices cn).getD []) mounts w).1 with
          | some e =>
            simp [syncMounts, h1, h2, hlm, hr, hloop.1, hw0]
          | none =>
            cases hsf : o.saveFails <;>
              simp [syncMounts, h1, h2, hlm, hr, doSave, hsf, countSaves_append,
                hloop.1, hw0, countSaves_single_save]
      · simp [syncMounts, h1, h2, hw0]
    · simp [syncMounts, h1, hw0]
  · intro mounts hlm
    obtain ⟨h1, h2, _, _⟩ := listMounts_ok_inv o w cn mounts hlm
    have hloop := syncLoop_frame o cn (w.cfg.getLXCName cn)
      ((w.cfg.getDevices cn).getD []) mounts w
    constructor
    · intro hfail
      have hsome := syncLoop_fail_of_missing o cn (w.cfg.getLXCName cn)
        ((w.cfg.getDevices cn).getD []) mounts w hfail
      cases hr : (syncLoop o cn (w.cfg.getLXCName cn)
          ((w.cfg.getDevices cn).getD []) mounts w).1 with
      | none => rw [hr] at hsome; simp at hsome
      | some e =>
        refine ⟨?_, ?_, ?_⟩ <;>
          simp [syncMounts, h1, h2, hlm, hr, isOkE, hloop.1, hloop.2, hw0]
    · intro hok
      have hall := syncLoop_all_ok o cn (w.cfg.getLXCName cn)
        ((w.cfg.getDevices cn).getD []) mounts w hok
      cases hsf : o.saveFails <;>
        simp [syncMounts, h1, h2, hlm, hall, doSave, hsf, hw]

theorem syncMounts_save_discipline_witness :
    countSaves (syncMounts witOracle witWorld "c").2.trace ≤ 1
  ∧ (syncMounts witOracle witWorld "c").2.cfg = witWorld.cfg
  ∧ (syncMounts witOracle witWorld "c").2.trace = [Ev.save]
  ∧ (syncMounts { witOracle with addFails := fun _ _ => true }
      ⟨witCfg, [("c", [])], some witCfg, []⟩ "c").2.disk = some witCfg
  ∧ isOkE (syncMounts { witOracle with addFails := fun _ _ => true }
      ⟨witCfg, [("c", [])], some witCfg, []⟩ "c").1 = false := by
  have h1 := syncMounts_save_discipline witOracle witWorld "c" rfl
  have h2 := ((h1.2 [⟨"repo", "/host", "/ws", "rw", "ok"⟩] (by rfl)).2
    (by intro m hm; fin_cases hm; rfl))
  have h3 := syncMounts_save_discipline { witOracle with addFails := fun _ _ => true }
    ⟨witCfg, [("c", [])], some witCfg, []⟩ "c" rfl
  have h4 := (h3.2 [⟨"repo", "/host", "/ws", "rw", "missing"⟩] (by rfl)).1
    ⟨⟨"repo", "/host", "/ws", "rw", "missing"⟩, by simp, rfl, rfl⟩
  exact ⟨h1.1, h2.1, h2.2.1, h4.2.2, h4.1⟩

/-! ### Claim C5 (corrected): ListMounts classification and ordering -/

lemma ltCharList_asymm : ∀ a b : List Char, ltCharList a b = true → ltCharList b a = false := by
  intro a
  induction a with
  | nil =>
    intro b h
    cases b with
    | nil => simp [ltCharList] at h
    | cons cb bs => rfl
  | cons ca as ih =>
    intro b h
    cases b with
    | nil => simp [ltCharList] at h
    | cons cb bs =>
      simp only [ltCharList] at h ⊢
      by_cases h1 : ca.toNat < cb.toNat
      · simp [h1, show ¬ (cb.toNat < ca.toNat) by omega]
      · by_cases h2 : cb.toNat < ca.toNat
        · simp [h1, h2] at h
        · simp only [h1, h2, if_neg, if_false] at h ⊢
          exact ih bs h

lemma ltS_asymm {a b : String} (h : ltS a b = true) : ltS b a = false :=
  ltCharList_asymm a.data b.data h

/-- Adjacent-pairs check that a mount list is sorted ascending by name. -/
def sortedB : List MountInfo → Bool
  | [] => true
  | [_] => true
  | x :: y :: rest => !(ltS y.name x.name) && sortedB (y :: rest)

lemma sortedB_insertByName (m : MountInfo) :
    ∀ l, sortedB l = true → sortedB (insertByName m l) = true := by
  intro l
  induction l with
  | nil => intro _; rfl
  | cons x xs ih =>
    intro h
    cases xs with
    | nil =>
      by_cases hlt : ltS m.name x.name = true
      · simp [insertByName, hlt, sortedB, ltS_asymm hlt]
      · have hlt' : ltS m.name x.name = false := by
          cases hh : ltS m.name x.name
          · rfl
          · exact absurd hh hlt
        simp [insertByName, hlt', sortedB]
    | cons y ys =>
      have hxy : (!(ltS y.name x.name)) = true := by
        have := h
        simp only [sortedB, Bool.and_eq_true] at this
        exact this.1
      have htail : sortedB (y :: ys) = true := by
        have := h
        simp only [sortedB, Bool.and_eq_true] at this
        exact this.2
      have hins := ih htail
      by_cases hlt : ltS m.name x.name = true
      · simp only [insertByName, hlt, if_true]
        simp only [sortedB, Bool.and_eq_true]
        exact ⟨by simp [ltS_asymm hlt], by simpa [sortedB] using h⟩
      · have hlt' : ltS m.name x.name = false := by
          cases hh : ltS m.name x.name
          · rfl
          · exact absurd hh hlt
        by_cases hlt2 : ltS m.name y.name = true
        · simp only [insertByName, hlt', Bool.false_eq_true, if_false, hlt2, if_true]
          simp only [insertByName, hlt2, if_true] at hins
          simp only [sortedB, Bool.and_eq_true]
          exact ⟨by simp [hlt'], by simpa [sortedB, Bool.and_eq_true] using hins⟩
        · have hlt2' : ltS m.name y.name = false := by
            cases hh : ltS m.name y.name
            · rfl
            · exact absurd hh hlt2
          simp only [insertByName, hlt', Bool.false_eq_true, if_false, hlt2'] at hins ⊢
          simp only [sortedB, Bool.and_eq_true]
          exact ⟨hxy, hins⟩

lemma sortedB_sortByName : ∀ l, sortedB (sortByName l) = true := by
  intro l
  induction l with
  | nil => rfl
  | cons x xs ih => exact sortedB_insertByName x (sortByName xs) ih

lemma mem_insertByName (a m : MountInfo) :
    ∀ l, a ∈ insertByName m l ↔ a = m ∨ a ∈ l := by
  intro l
  induction l with
  | nil => simp [insertByName]
  | cons x xs ih =>
    simp only [insertByName]
    split
    · simp [List.mem_cons]
    · simp only [List.mem_cons, ih]
      tauto

lemma mem_sortByName (a : MountInfo) : ∀ l, a ∈ sortByName l ↔ a ∈ l := by
  intro l
  induction l with
  | nil => simp [sortByName]
  | cons x xs ih => simp [sortByName, mem_insertByName, ih]

/-- Whether a live disk device with the given name exists in a driver device
list (the `lxcDiskDevices` membership test of `ListMounts`). -/
def liveDisk (lxcDevices : List DeviceInfo) (n : String) : Bool :=
  (lxcDevices.filter (fun d => d.type == "disk")).any (fun d => d.name == n)

/-- Fixture for the spec scenario: declared = one disk device `repo`. -/
def cexDeclared : List (String × Device) :=
  [("repo", ⟨"disk", [("source", "/host"), ("path", "/ws")]⟩)]

/-- Fixture for the spec scenario: live = disk devices `repo` and `extra`. -/
def cexLive : List DeviceInfo :=
  [⟨"repo", "disk", [("source", "/host"), ("path", "/ws")]⟩,
   ⟨"extra", "disk", [("source", "/x"), ("path", "/y")]⟩]

/-- Fixture: the scenario world for the full `ListMounts` call. -/
def cexWorld : World :=
  ⟨⟨"", ⟨[], ⟨"", ""⟩⟩, [("c", ⟨"img", [], ⟨"", ""⟩, [], [], cexDeclared⟩)]⟩,
   [("c", cexLive)], none, []⟩

/-- C5 counterexample: in the spec scenario the result list is sorted
ascending by name, so it is `[extra untracked, repo ok]`, not
`[repo ok, extra untracked]` as the claim states. -/
theorem listMounts_scenario_order_counterexample :
    listMounts witOracle cexWorld "c"
      = .ok [⟨"extra", "/x", "/y", "rw", "untracked"⟩, ⟨"repo", "/host", "/ws", "rw", "ok"⟩]
  ∧ (listMounts witOracle cexWorld "c").toOption.getD []
      ≠ [⟨"repo", "/host", "/ws", "rw", "ok"⟩, ⟨"extra", "/x", "/y", "rw", "untracked"⟩] :=
  ⟨by rfl, by decide⟩

/-- C5 amended: `ListMounts` classifies every declared disk-type device as
`ok` when a live disk device of the same name exists and `missing`
otherwise, classifies every live disk device whose name is not declared as
`untracked`, lets only declared disk devices produce `ok`/`missing` entries,
and returns the union sorted ascending by device name; for the scenario
declared = repo, live = repo and extra, the result is
`[extra untracked, repo ok]` (ascending name order). -/
theorem listMounts_classification_amended
    (D : List (String × Device)) (L : List DeviceInfo) :
    (∀ n dev, (n, dev) ∈ D → dev.type = "disk" →
      ∃ m ∈ listMountsCore D L, m.name = n
        ∧ m.status = (if liveDisk L n then "ok" else "missing"))
  ∧ (∀ d ∈ L, d.type = "disk" → (∀ dev, (d.name, dev) ∉ D) →
      ∃ m ∈ listMountsCore D L, m.name = d.name ∧ m.status = "untracked")
  ∧ (∀ m ∈ listMountsCore D L, (m.status = "ok" ∨ m.status = "missing") →
      ∃ dev, (m.name, dev) ∈ D ∧ dev.type = "disk")
  ∧ sortedB (listMountsCore D L) = true
  ∧ listMounts witOracle cexWorld "c"
      = .ok [⟨"extra", "/x", "/y", "rw", "untracked"⟩,
             ⟨"repo", "/host", "/ws", "rw", "ok"⟩] := by
  refine ⟨?_, ?_, ?_, sortedB_sortByName _, by rfl⟩
  · intro n dev hmem htype
    refine ⟨⟨n, (lookupA dev.config "source").getD "", (lookupA dev.config "path").getD "",
      getMode dev.config, if liveDisk L n then "ok" else "missing"⟩, ?_, rfl, rfl⟩
    simp only [listMountsCore]
    rw [mem_sortByName]
    apply List.mem_append_left
    rw [List.mem_filterMap]
    exact ⟨(n, dev), hmem, by simp [htype, liveDisk]⟩
  · intro d hdL htype hnot
    refine ⟨⟨d.name, (lookupA d.config "source").getD "", (lookupA d.config "path").getD "",
      getMode d.config, "untracked"⟩, ?_, rfl, rfl⟩
    have hany : D.any (fun nd => nd.2.type == "disk" && nd.1 == d.name) = false := by
      rw [List.any_eq_false]
      intro nd hnd
      have hne : (nd.1 == d.name) = false := by
        cases hb : nd.1 == d.name
        · rfl
        · have heq : nd.1 = d.name := by simpa using hb
          have : (d.name, nd.2) ∈ D := by
            rw [← heq]
            exact hnd
          exact absurd this (hnot nd.2)
      simp [hne]
    simp only [listMountsCore]
    rw [mem_sortByName]
    apply List.mem_append_right
    rw [List.mem_filterMap]
    refine ⟨d, List.mem_filter.mpr ⟨hdL, by simp [htype]⟩, by simp [hany]⟩
  · intro m hm hstat
    simp only [listMountsCore] at hm
    rw [mem_sortByName] at hm
    rcases List.mem_append.mp hm with hc | hl
    · rcases List.mem_filterMap.mp hc with ⟨nd, hnd, heq⟩
      by_cases ht : (nd.2.type == "disk") = true
      · rw [if_pos ht] at heq
        have hname : m.name = nd.1 := by
          cases heq
          rfl
        refine ⟨nd.2, ?_, by simpa using ht⟩
        rw [hname]
        exact hnd
      · rw [if_neg ht] at heq
        cases heq
    · rcases List.mem_filterMap.mp hl with ⟨d, _, heq⟩
      split at heq
      · cases heq
      · have hstat' : m.status = "untracked" := by
          cases heq
          rfl
        rw [hstat'] at hstat
        rcases hstat with h | h <;> simp at h

theorem listMounts_classification_witness :
    (listMountsCore cexDeclared cexLive).any
      (fun m => m.name == "repo" && m.status == "ok") = true := by
  obtain ⟨m, hm, hname, hstat⟩ := (listMounts_classification_amended cexDeclared cexLive).1
    "repo" ⟨"disk", [("source", "/host"), ("path", "/ws")]⟩ (by decide) rfl
  have hld : liveDisk cexLive "repo" = true := by decide
  simp only [hld, if_true] at hstat
  exact List.any_eq_true.mpr ⟨m, hm, by simp [hname, hstat]⟩

end LxcSpec
